import Mathlib

/-!
Shallow embedding of the command-dispatch and protocol-encoding core of the
`midi_ctrl` repository (src/main.rs, src/gui.rs), together with theorems
checking the specification's claims against it.

Modelling conventions:
* machine bytes (`u8`) are `Nat` values with wrap-around made explicit where
  the source can overflow/underflow;
* writes to the `MidiOutputConnection` and `thread::sleep` calls become
  entries of an explicit wire-event trace (`Ev`), device writes are modelled
  as succeeding;
* the `f32` tempo value is modelled by exact rationals (`ℚ`); the only
  arithmetic performed on it in the source is `(60.0 / (bpm * 24.0)) * 1000.0`
  followed by the truncating cast `as u64`, modelled by `Rat.floor` /
  `Int.toNat` (the cast truncates toward zero and saturates negatives to 0).
-/

namespace MidiCtrl

/-- Wrapping `u8` subtraction: release-build semantics of `a - b` on `u8`
(for `a b ≤ 255`). -/
def u8wrapSub (a b : Nat) : Nat := (a + 256 - b % 256) % 256

/-- Checked `u8` subtraction: `none` models the debug-build panic on
underflow of `a - b`. -/
def u8checkedSub (a b : Nat) : Option Nat :=
  if b ≤ a then some (a - b) else none

/-- Channel nibble `(channel - 1) & 0x0F` as computed (with wrapping `u8`
subtraction) by `send_cc`, `send_program_change`, `send_note_on`,
`send_note_off` in src/main.rs lines 58-79 and src/gui.rs line 47. -/
def chanNibble (channel : Nat) : Nat := u8wrapSub channel 1 &&& 0x0F

/-- Encoder `send_cc` (src/main.rs line 58, src/gui.rs line 46): the bytes
written are `[0xB0 | ((channel - 1) & 0x0F), controller, value]`. -/
def send_cc (channel controller value : Nat) : List Nat :=
  [0xB0 ||| chanNibble channel, controller, value]

/-- Encoder `send_program_change` (src/main.rs line 64): bytes
`[0xC0 | ((channel - 1) & 0x0F), program]`. -/
def send_program_change (channel program : Nat) : List Nat :=
  [0xC0 ||| chanNibble channel, program]

/-- Encoder `send_note_on` (src/main.rs line 70): bytes
`[0x90 | ((channel - 1) & 0x0F), note, vel]`. -/
def send_note_on (channel note vel : Nat) : List Nat :=
  [0x90 ||| chanNibble channel, note, vel]

/-- Encoder `send_note_off` (src/main.rs line 75): bytes
`[0x80 | ((channel - 1) & 0x0F), note, 0]`. -/
def send_note_off (channel note : Nat) : List Nat :=
  [0x80 ||| chanNibble channel, note, 0]

/-- Encoder `send_realtime` (src/main.rs line 53, src/gui.rs line 41): writes
the single given byte. -/
def send_realtime (byte : Nat) : List Nat := [byte]

/-- Debug-build variant of `send_cc`: `channel - 1` on `u8` panics on
underflow, modelled by `none`. -/
def send_cc_dbg (channel controller value : Nat) : Option (List Nat) :=
  (u8checkedSub channel 1).map fun d => [0xB0 ||| (d &&& 0x0F), controller, value]

end MidiCtrl

namespace MidiCtrl

/-- Trace entries for the dispatcher model: acquiring/releasing a MIDI output
handle (handles get fresh numeric ids), writing one byte to the open
connection, and a `thread::sleep` of the given number of milliseconds. -/
inductive Ev where
| opened (h : Nat)
| closed (h : Nat)
| wrote (b : Nat)
| slept (ms : Nat)
deriving DecidableEq

/-- Projection of a trace entry to the byte it writes, if any. -/
def Ev.byteOf : Ev → Option Nat
| .wrote b => some b
| _ => none

/-- Bytes written on the wire along a trace, in order. -/
def bytesOf (evs : List Ev) : List Nat := evs.filterMap Ev.byteOf

/-- Contribution of one trace entry to the number of open handles. -/
def evDelta : Ev → Int
| .opened _ => 1
| .closed _ => -1
| _ => 0

/-- Net change in the number of open handles along a trace. -/
def netOpen (evs : List Ev) : Int := (evs.map evDelta).sum

/-- Auxiliary fold: running count of open handles and the maximum reached. -/
def maxPrefixOpenAux (cur best : Int) : List Ev → Int
| [] => best
| e :: es => maxPrefixOpenAux (cur + evDelta e) (max best (cur + evDelta e)) es

/-- Maximum number of simultaneously open handles reached at any point of a
trace, starting from `cur` already open. -/
def maxPrefixOpenFrom (cur : Int) (evs : List Ev) : Int :=
maxPrefixOpenAux cur cur evs

/-- Maximum number of simultaneously open handles along a trace, starting
from none open. -/
def maxPrefixOpen (evs : List Ev) : Int := maxPrefixOpenFrom 0 evs

/-- Release of the handle currently held in `conn`, if any (a Rust drop of
the `Option<MidiOutputConnection>` contents). -/
def closeEvs (conn : Option Nat) : List Ev :=
match conn with
| some h => [Ev.closed h]
| none => []

/-- Clock-pulse loop body of `send_timing_clock` (src/gui.rs lines 58-62):
each iteration sends one 0xF8 byte then sleeps `ms` milliseconds. -/
def clockTicks (ms : Nat) : Nat → List Ev
| 0 => []
| n + 1 => Ev.wrote 0xF8 :: Ev.slept ms :: clockTicks ms n

/-- Tempo-driven clock generator `send_timing_clock` (src/gui.rs lines
52-64): computes `ms_per_tick = (60.0 / (bpm * 24.0)) * 1000.0` (an `f32`
value, modelled exactly in ℚ) and sleeps `Duration::from_millis(ms_per_tick
as u64)` after each of `ticks` clock bytes; the `as u64` cast truncates
toward zero (saturating negatives to 0), modelled by `Rat.floor`/`Int.toNat`. -/
def send_timing_clock (bpm : ℚ) (ticks : Nat) : List Ev :=
let msPerTick : ℚ := 60 / (bpm * 24) * 1000
clockTicks (Rat.floor msPerTick).toNat ticks

/-- Fixed Start burst loop (src/gui.rs lines 115-120): six iterations, each
sending one 0xF8 clock byte then sleeping a fixed 8 ms. -/
def startBurst : Nat → List Ev
| 0 => []
| n + 1 => Ev.wrote 0xF8 :: Ev.slept 8 :: startBurst n

end MidiCtrl

namespace MidiCtrl.Gui

/-- The `MidiCommand` enumeration of src/gui.rs lines 8-19 (`Continue` is
spelled `cont`, since `continue` is reserved in Lean). -/
inductive MidiCommand where
| connect (maybeIdx : Option Nat) (ch : Nat)
| disconnect
| sendCC (channel controller value : Nat)
| start
| stop
| cont
| queryDevice
| setBpm (bpm : ℚ)
| quit
deriving DecidableEq

/-- State of the background dispatcher thread of `run_gui` (src/gui.rs lines
71-75): the locals `conn`, `_current_port`, `_current_channel`,
`current_bpm`, plus a fresh-id counter modelling handle identity for
`open_output`. -/
structure DState where
conn : Option Nat
current_port : Option Nat
current_channel : Nat
current_bpm : ℚ
nextHandle : Nat
deriving DecidableEq

/-- Initial dispatcher state (src/gui.rs lines 72-75): no connection, no
port, the caller's initial channel, bpm 120.0. -/
def initState (initialChannel : Nat) : DState :=
{ conn := none, current_port := none, current_channel := initialChannel,
  current_bpm := 120, nextHandle := 0 }

/-- Number of handles the dispatcher state holds open (0 or 1, as `conn` is
an `Option`). -/
def connCount (s : DState) : Int := if s.conn.isSome then 1 else 0

/-- One iteration of the dispatcher loop of `run_gui` (src/gui.rs lines
77-155). `openOk idx` models whether `open_output(idx)` succeeds (port
exists and the device open call works). Device writes are modelled as
succeeding. The `state_tx` messages to the GUI thread are not wire traffic
and are not traced. In the `Connect` arm the new handle is produced by
`open_output` before the assignment `conn = Some(c)` drops the old one, so
the trace records `opened` before `closed`. -/
def step (openOk : Nat → Bool) (s : DState) : MidiCommand → DState × List Ev
| .connect maybeIdx ch =>
  let s1 := { s with current_channel := ch }
  match maybeIdx with
  | some idx =>
    if openOk idx then
      ({ s1 with
           conn := some s1.nextHandle
           current_port := some idx
           nextHandle := s1.nextHandle + 1 },
       Ev.opened s1.nextHandle :: closeEvs s1.conn)
    else (s1, [])
  | none => (s1, [])
| .disconnect =>
  ({ s with conn := none, current_port := none }, closeEvs s.conn)
| .sendCC channel controller value =>
  match s.conn with
  | some _ => (s, (send_cc channel controller value).map Ev.wrote)
  | none => (s, [])
| .start =>
  match s.conn with
  | some _ => (s, Ev.wrote 0xFA :: startBurst 6)
  | none => (s, [])
| .stop =>
  match s.conn with
  | some _ => (s, [Ev.wrote 0xFC])
  | none => (s, [])
| .cont =>
  match s.conn with
  | some _ => (s, [Ev.wrote 0xFB])
  | none => (s, [])
| .queryDevice => (s, [])
| .setBpm b => ({ s with current_bpm := b }, [])
| .quit => (s, [])

/-- Loop exit: when the dispatcher thread leaves the `for cmd in rx` loop
(via `break` on `Quit`, or the channel closing), its local `conn` is
dropped, releasing any open handle. -/
def finalize (s : DState) : DState × List Ev :=
({ s with conn := none }, closeEvs s.conn)

/-- The dispatcher loop over a queue of commands (src/gui.rs lines 77-156):
commands are consumed strictly in FIFO order, one at a time; `Quit` breaks
out of the loop, abandoning the rest of the queue; on exit the connection
is dropped. -/
def run (openOk : Nat → Bool) : DState → List MidiCommand → DState × List Ev
| s, [] => finalize s
| s, .quit :: _ => finalize s
| s, c :: cs =>
  let p := step openOk s c
  let q := run openOk p.1 cs
  (q.1, p.2 ++ q.2)

end MidiCtrl.Gui

namespace MidiCtrl.MainGui

/-- The `MidiCommand` enumeration of the feature-gated `gui` module in
src/main.rs lines 216-227 (`Continue` spelled `cont`). -/
inductive MidiCommand where
| connect (maybeIdx : Option Nat) (ch : Nat)
| disconnect
| sendCC (channel controller value : Nat)
| start
| stop
| cont
| programChange (channel program : Nat)
| noteOn (channel note vel : Nat)
| noteOff (channel note : Nat)
| quit
deriving DecidableEq

/-- State of the background dispatcher thread of `gui::run_gui` (src/main.rs
lines 234-236): `conn`, `current_port`, `current_channel`, plus a fresh-id
counter for handle identity. -/
structure DState where
conn : Option Nat
current_port : Option Nat
current_channel : Nat
nextHandle : Nat
deriving DecidableEq

/-- One iteration of the dispatcher loop of `gui::run_gui` (src/main.rs
lines 238-313). Same modelling conventions as `MidiCtrl.Gui.step`; note the
`Start` arm of this variant writes only the 0xFA byte, with no clock burst. -/
def step (openOk : Nat → Bool) (s : DState) : MidiCommand → DState × List Ev
| .connect maybeIdx ch =>
  let s1 := { s with current_channel := ch }
  match maybeIdx with
  | some idx =>
    if openOk idx then
      ({ s1 with
           conn := some s1.nextHandle
           current_port := some idx
           nextHandle := s1.nextHandle + 1 },
       Ev.opened s1.nextHandle :: closeEvs s1.conn)
    else (s1, [])
  | none => (s1, [])
| .disconnect =>
  ({ s with conn := none, current_port := none }, closeEvs s.conn)
| .sendCC channel controller value =>
  match s.conn with
  | some _ => (s, (send_cc channel controller value).map Ev.wrote)
  | none => (s, [])
| .start =>
  match s.conn with
  | some _ => (s, [Ev.wrote 0xFA])
  | none => (s, [])
| .stop =>
  match s.conn with
  | some _ => (s, [Ev.wrote 0xFC])
  | none => (s, [])
| .cont =>
  match s.conn with
  | some _ => (s, [Ev.wrote 0xFB])
  | none => (s, [])
| .programChange channel program =>
  match s.conn with
  | some _ => (s, (send_program_change channel program).map Ev.wrote)
  | none => (s, [])
| .noteOn channel note vel =>
  match s.conn with
  | some _ => (s, (send_note_on channel note vel).map Ev.wrote)
  | none => (s, [])
| .noteOff channel note =>
  match s.conn with
  | some _ => (s, (send_note_off channel note).map Ev.wrote)
  | none => (s, [])
| .quit => (s, [])

end MidiCtrl.MainGui


namespace MidiCtrl

/-- C1: for every channel c in 1..16 and 7-bit data fields, the encoders
produce exactly the wire bytes of the spec's encoding table: ControlChange
`[0xB0 | (c-1), controller, value]`, ProgramChange `[0xC0 | (c-1), program]`,
NoteOn `[0x90 | (c-1), note, velocity]`, NoteOff `[0x80 | (c-1), note, 0]`,
and the transport/clock messages are the single bytes 0xFA (Start),
0xFC (Stop), 0xFB (Continue), 0xF8 (clock pulse). -/
theorem encoders_match_wire_table (c controller value program note vel : Nat)
    (h1 : 1 ≤ c) (h2 : c ≤ 16) :
    send_cc c controller value = [0xB0 ||| (c - 1), controller, value] ∧
    send_program_change c program = [0xC0 ||| (c - 1), program] ∧
    send_note_on c note vel = [0x90 ||| (c - 1), note, vel] ∧
    send_note_off c note = [0x80 ||| (c - 1), note, 0] ∧
    send_realtime 0xFA = [0xFA] ∧
    send_realtime 0xFC = [0xFC] ∧
    send_realtime 0xFB = [0xFB] ∧
    send_realtime 0xF8 = [0xF8] := by
  have hnib : chanNibble c = c - 1 := by
    interval_cases c <;> decide
  simp [send_cc, send_program_change, send_note_on, send_note_off,
    send_realtime, hnib]

theorem encoders_match_wire_table_witness :
    send_cc 1 74 100 = [0xB0 ||| (1 - 1), 74, 100] ∧
    send_program_change 1 5 = [0xC0 ||| (1 - 1), 5] ∧
    send_note_on 1 60 127 = [0x90 ||| (1 - 1), 60, 127] ∧
    send_note_off 1 60 = [0x80 ||| (1 - 1), 60, 0] ∧
    send_realtime 0xFA = [0xFA] ∧
    send_realtime 0xFC = [0xFC] ∧
    send_realtime 0xFB = [0xFB] ∧
    send_realtime 0xF8 = [0xF8] :=
  encoders_match_wire_table 1 74 100 5 60 127 (by decide) (by decide)

/-- C10: the channel nibble is `(channel - 1) & 0x0F` on a `u8`: under the
precondition `1 ≤ channel ≤ 16` the subtraction never underflows and the
nibble equals `channel - 1`; for `channel = 0` the `u8` subtraction
underflows (debug panic, modelled by `none`), and in release the nibble
wraps to `0x0F`, aliasing channel 16 — so the encoders are total only under
the `channel ≥ 1` precondition. -/
theorem chan_nibble_underflow (c controller value : Nat)
    (h1 : 1 ≤ c) (h2 : c ≤ 16) :
    u8checkedSub c 1 = some (c - 1) ∧
    chanNibble c = c - 1 ∧
    send_cc_dbg c controller value = some (send_cc c controller value) ∧
    u8checkedSub 0 1 = none ∧
    chanNibble 0 = 0x0F ∧
    chanNibble 0 = chanNibble 16 ∧
    send_cc_dbg 0 controller value = none ∧
    send_cc 0 controller value = send_cc 16 controller value := by
  have hnib : chanNibble c = c - 1 ∧ u8checkedSub c 1 = some (c - 1) ∧
      (c - 1) &&& 0x0F = c - 1 := by
    interval_cases c <;> exact ⟨by decide, by decide, by decide⟩
  refine ⟨hnib.2.1, hnib.1, ?_, by decide, by decide, by decide, ?_, ?_⟩
  · simp [send_cc_dbg, hnib.2.1, send_cc, hnib.1, hnib.2.2]
  · simp [send_cc_dbg, u8checkedSub]
  · simp [send_cc, show chanNibble 0 = chanNibble 16 from by decide]

theorem chan_nibble_underflow_witness :
    u8checkedSub 3 1 = some (3 - 1) ∧
    chanNibble 3 = 3 - 1 ∧
    send_cc_dbg 3 10 20 = some (send_cc 3 10 20) ∧
    u8checkedSub 0 1 = none ∧
    chanNibble 0 = 0x0F ∧
    chanNibble 0 = chanNibble 16 ∧
    send_cc_dbg 0 10 20 = none ∧
    send_cc 0 10 20 = send_cc 16 10 20 :=
  chan_nibble_underflow 3 10 20 (by decide) (by decide)

end MidiCtrl

namespace MidiCtrl

/-- C4: whenever the gui.rs dispatcher processes Start while Connected, it
emits exactly the events `wrote 0xFA` followed by six repetitions of
`wrote 0xF8` then `slept 8`, so the wire bytes are
`[0xFA, 0xF8, 0xF8, 0xF8, 0xF8, 0xF8, 0xF8]` with a fixed 8 ms sleep
between pulses, independent of the current bpm value (the state, hence the
bpm, is arbitrary and left unchanged). -/
theorem start_burst_bytes (openOk : Nat → Bool) (s : Gui.DState) (h : Nat)
    (hc : s.conn = some h) :
    (Gui.step openOk s .start).2 =
      [Ev.wrote 0xFA, Ev.wrote 0xF8, Ev.slept 8, Ev.wrote 0xF8, Ev.slept 8,
       Ev.wrote 0xF8, Ev.slept 8, Ev.wrote 0xF8, Ev.slept 8, Ev.wrote 0xF8,
       Ev.slept 8, Ev.wrote 0xF8, Ev.slept 8] ∧
    bytesOf (Gui.step openOk s .start).2 =
      [0xFA, 0xF8, 0xF8, 0xF8, 0xF8, 0xF8, 0xF8] ∧
    (Gui.step openOk s .start).1 = s := by
  cases s with
  | mk conn port ch bpm nh =>
    simp only [Gui.DState.conn] at hc
    subst hc
    exact ⟨rfl, rfl, rfl⟩

theorem start_burst_bytes_witness :
    (Gui.step (fun _ => true)
        { conn := some 0, current_port := some 0, current_channel := 1,
          current_bpm := 120, nextHandle := 1 } .start).2 =
      [Ev.wrote 0xFA, Ev.wrote 0xF8, Ev.slept 8, Ev.wrote 0xF8, Ev.slept 8,
       Ev.wrote 0xF8, Ev.slept 8, Ev.wrote 0xF8, Ev.slept 8, Ev.wrote 0xF8,
       Ev.slept 8, Ev.wrote 0xF8, Ev.slept 8] ∧
    bytesOf (Gui.step (fun _ => true)
        { conn := some 0, current_port := some 0, current_channel := 1,
          current_bpm := 120, nextHandle := 1 } .start).2 =
      [0xFA, 0xF8, 0xF8, 0xF8, 0xF8, 0xF8, 0xF8] ∧
    (Gui.step (fun _ => true)
        { conn := some 0, current_port := some 0, current_channel := 1,
          current_bpm := 120, nextHandle := 1 } .start).1 =
      { conn := some 0, current_port := some 0, current_channel := 1,
        current_bpm := 120, nextHandle := 1 } :=
  start_burst_bytes (fun _ => true)
    { conn := some 0, current_port := some 0, current_channel := 1,
      current_bpm := 120, nextHandle := 1 } 0 rfl

/-- C5 counterexample: the claim says a non-positive bpm is rejected and
TempoState is left unchanged, but the SetBpm arm (src/gui.rs lines 147-151)
performs no validation: `SetBpm(-5)` overwrites the tempo (120) with -5. -/
theorem setbpm_no_validation_cex :
    (Gui.step (fun _ => true) (Gui.initState 1)
        (.setBpm (-5))).1.current_bpm = -5 ∧
    ¬ (0 : ℚ) < -5 ∧
    (Gui.initState 1).current_bpm ≠ -5 := by
  refine ⟨rfl, by norm_num, ?_⟩
  show (120 : ℚ) ≠ -5
  norm_num

/-- C5 (amended): processing SetBpm(bpm) updates TempoState to bpm
unconditionally — no `bpm > 0` validation is performed, a non-positive bpm
is stored as-is — and no bytes are written to the wire. -/
theorem setbpm_updates_unconditionally (openOk : Nat → Bool)
    (s : Gui.DState) (b : ℚ) :
    Gui.step openOk s (.setBpm b) = ({ s with current_bpm := b }, []) := rfl

/-- C6: every data-carrying command processed while Disconnected — SendCC in
the gui.rs dispatcher, and SendCC/ProgramChange/NoteOn/NoteOff in the
main.rs gui dispatcher — writes zero bytes (empty trace, so no crash is
modelled) and leaves the dispatcher state (connection, channel, tempo)
unchanged. -/
theorem offline_commands_noop (openOk : Nat → Bool) (s : Gui.DState)
    (t : MainGui.DState) (ch c v p n vel : Nat)
    (hs : s.conn = none) (ht : t.conn = none) :
    Gui.step openOk s (.sendCC ch c v) = (s, []) ∧
    MainGui.step openOk t (.sendCC ch c v) = (t, []) ∧
    MainGui.step openOk t (.programChange ch p) = (t, []) ∧
    MainGui.step openOk t (.noteOn ch n vel) = (t, []) ∧
    MainGui.step openOk t (.noteOff ch n) = (t, []) := by
  cases s with
  | mk conn port chan bpm nh =>
    cases t with
    | mk conn2 port2 chan2 nh2 =>
      simp only [Gui.DState.conn] at hs
      simp only [MainGui.DState.conn] at ht
      subst hs
      subst ht
      exact ⟨rfl, rfl, rfl, rfl, rfl⟩

theorem offline_commands_noop_witness :
    Gui.step (fun _ => true) (Gui.initState 1) (.sendCC 1 74 100) =
      (Gui.initState 1, []) ∧
    MainGui.step (fun _ => true)
      { conn := none, current_port := none, current_channel := 1,
        nextHandle := 0 } (.sendCC 1 74 100) =
      ({ conn := none, current_port := none, current_channel := 1,
         nextHandle := 0 }, []) ∧
    MainGui.step (fun _ => true)
      { conn := none, current_port := none, current_channel := 1,
        nextHandle := 0 } (.programChange 1 5) =
      ({ conn := none, current_port := none, current_channel := 1,
         nextHandle := 0 }, []) ∧
    MainGui.step (fun _ => true)
      { conn := none, current_port := none, current_channel := 1,
        nextHandle := 0 } (.noteOn 1 60 127) =
      ({ conn := none, current_port := none, current_channel := 1,
         nextHandle := 0 }, []) ∧
    MainGui.step (fun _ => true)
      { conn := none, current_port := none, current_channel := 1,
        nextHandle := 0 } (.noteOff 1 60) =
      ({ conn := none, current_port := none, current_channel := 1,
         nextHandle := 0 }, []) :=
  offline_commands_noop (fun _ => true) (Gui.initState 1)
    { conn := none, current_port := none, current_channel := 1,
      nextHandle := 0 } 1 74 100 5 60 127 rfl rfl

/-- C7: processing Quit terminates the dispatcher loop and releases any open
handle (the run of `Quit :: rest` equals the loop finalization, whose state
holds no connection); commands queued behind Quit are never processed, so
the whole remaining queue — in particular a trailing ControlChange —
contributes zero wire bytes. -/
theorem quit_abandons_queue (openOk : Nat → Bool) (s : Gui.DState)
    (rest : List Gui.MidiCommand) :
    Gui.run openOk s (.quit :: rest) = Gui.finalize s ∧
    (Gui.run openOk s (.quit :: rest)).1.conn = none ∧
    bytesOf (Gui.run openOk s (.quit :: rest)).2 = [] := by
  cases s with
  | mk conn port ch bpm nh =>
    refine ⟨rfl, rfl, ?_⟩
    cases conn <;> rfl

/-- C8: the dispatcher applies commands in exact enqueue order: for a queue
`a :: cs` with `a ≠ Quit`, the run trace is `a`'s full event list (all of
its bytes and sleeps, e.g. the whole Start burst) followed by the trace of
the rest — no reordering, priority, or preemption of an in-progress
command. -/
theorem fifo_order (openOk : Nat → Bool) (s : Gui.DState)
    (a : Gui.MidiCommand) (cs : List Gui.MidiCommand) (ha : a ≠ .quit) :
    Gui.run openOk s (a :: cs) =
      ((Gui.run openOk (Gui.step openOk s a).1 cs).1,
       (Gui.step openOk s a).2 ++
         (Gui.run openOk (Gui.step openOk s a).1 cs).2) := by
  cases a
  case quit => exact absurd rfl ha
  all_goals rfl

theorem fifo_order_witness :
    Gui.run (fun _ => true) (Gui.initState 1) (.stop :: [.quit]) =
      ((Gui.run (fun _ => true)
          (Gui.step (fun _ => true) (Gui.initState 1) .stop).1 [.quit]).1,
       (Gui.step (fun _ => true) (Gui.initState 1) .stop).2 ++
         (Gui.run (fun _ => true)
           (Gui.step (fun _ => true) (Gui.initState 1) .stop).1 [.quit]).2) :=
  fifo_order (fun _ => true) (Gui.initState 1) .stop [.quit] (by decide)

end MidiCtrl

namespace MidiCtrl

/-- C2 counterexample: the claim says a failed `Connect(Some(idx), ch)`
leaves the dispatcher Disconnected even when it was already Connected, but
the Connect arm (src/gui.rs lines 79-94) only logs the failure and leaves
`conn` untouched: after a successful connect to port 0, a failed connect to
port 5 leaves the old connection (handle 0) in place, not `none`. -/
theorem failed_connect_keeps_connection_cex :
    (Gui.step (fun i => i == 0)
        (Gui.step (fun i => i == 0) (Gui.initState 1)
          (.connect (some 0) 1)).1
        (.connect (some 5) 2)).1.conn = some 0 ∧
    (some 0 : Option Nat) ≠ none := by
  exact ⟨rfl, by decide⟩

/-- C2 (amended): when `Connect(Some(idx), ch)` fails to open the port, the
connection state is left exactly as it was (Disconnected stays Disconnected,
but an existing connection is retained, not released); only the desired
channel is updated, no bytes are written, and the dispatcher loop continues
processing subsequent commands. -/
theorem failed_connect_leaves_state (openOk : Nat → Bool) (s : Gui.DState)
    (idx ch : Nat) (cs : List Gui.MidiCommand) (hfail : openOk idx = false) :
    Gui.step openOk s (.connect (some idx) ch) =
      ({ s with current_channel := ch }, []) ∧
    (Gui.step openOk s (.connect (some idx) ch)).1.conn = s.conn ∧
    Gui.run openOk s (.connect (some idx) ch :: cs) =
      Gui.run openOk { s with current_channel := ch } cs := by
  have h1 : Gui.step openOk s (.connect (some idx) ch) =
      ({ s with current_channel := ch }, []) := by
    simp [Gui.step, hfail]
  refine ⟨h1, by rw [h1], ?_⟩
  have h2 : Gui.run openOk s (.connect (some idx) ch :: cs) =
      ((Gui.run openOk
          (Gui.step openOk s (.connect (some idx) ch)).1 cs).1,
       (Gui.step openOk s (.connect (some idx) ch)).2 ++
         (Gui.run openOk
           (Gui.step openOk s (.connect (some idx) ch)).1 cs).2) := rfl
  rw [h2, h1]
  simp

theorem failed_connect_leaves_state_witness :
    Gui.step (fun _ => false) (Gui.initState 1) (.connect (some 5) 2) =
      ({ Gui.initState 1 with current_channel := 2 }, []) ∧
    (Gui.step (fun _ => false) (Gui.initState 1)
        (.connect (some 5) 2)).1.conn = (Gui.initState 1).conn ∧
    Gui.run (fun _ => false) (Gui.initState 1) [.connect (some 5) 2] =
      Gui.run (fun _ => false) { Gui.initState 1 with current_channel := 2 }
        [] :=
  failed_connect_leaves_state (fun _ => false) (Gui.initState 1) 5 2 [] rfl

theorem evDelta_zero_of_mem_startBurst (n : Nat) (e : Ev)
    (he : e ∈ startBurst n) : evDelta e = 0 := by
  induction n with
  | zero => simp [startBurst] at he
  | succ k ih =>
    simp only [startBurst, List.mem_cons] at he
    rcases he with h | h | h
    · subst h; rfl
    · subst h; rfl
    · exact ih h

theorem maxAux_zero (evs : List Ev) (hz : ∀ e ∈ evs, evDelta e = 0) :
    ∀ cur best : Int, cur ≤ best → maxPrefixOpenAux cur best evs = best := by
  induction evs with
  | nil => intro cur best _; rfl
  | cons e es ih =>
    intro cur best h
    have hz0 : evDelta e = 0 := hz e (by simp)
    have hstep : maxPrefixOpenAux cur best (e :: es) =
        maxPrefixOpenAux (cur + evDelta e) (max best (cur + evDelta e)) es :=
      rfl
    rw [hstep, hz0, add_zero, max_eq_left h]
    exact ih (fun x hx => hz x (by simp [hx])) cur best h

theorem netOpen_of_zero (evs : List Ev) (hz : ∀ e ∈ evs, evDelta e = 0) :
    netOpen evs = 0 := by
  refine List.sum_eq_zero ?_
  intro x hx
  rcases List.mem_map.mp hx with ⟨e, he, rfl⟩
  exact hz e he

theorem connCount_le_one (t : Gui.DState) : Gui.connCount t ≤ 1 := by
  unfold Gui.connCount
  split <;> norm_num

/-- C3 counterexample: the claim says at most one handle is ever open and
that on reconnect the old handle is released before the new one is
acquired, but the Connect arm calls `open_output` (acquiring the new
handle) before the assignment `conn = Some(c)` drops the old one: running
`Connect(Some(0),1); Connect(Some(1),2)` from the initial state reaches a
point where two handles are open simultaneously. -/
theorem reconnect_two_handles_open_cex :
    maxPrefixOpen (Gui.run (fun _ => true) (Gui.initState 1)
        [.connect (some 0) 1, .connect (some 1) 2]).2 = 2 ∧
    ¬ maxPrefixOpen (Gui.run (fun _ => true) (Gui.initState 1)
        [.connect (some 0) 1, .connect (some 1) 2]).2 ≤ 1 := by
  have h : maxPrefixOpen (Gui.run (fun _ => true) (Gui.initState 1)
      [.connect (some 0) 1, .connect (some 1) 2]).2 = 2 := by decide
  exact ⟨h, by rw [h]; decide⟩

/-- C3 (amended): at every command boundary the dispatcher holds at most one
open handle, and each command's event trace keeps the number of open
handles at or below two — the momentary two arises exactly because, on a
Connect that succeeds while already Connected, the new handle is acquired
(`opened`) before the old one is released (`closed`), as the final conjunct
shows; the handle count tracked by the state always matches the net effect
of the trace. -/
theorem handle_swap_bounded (openOk : Nat → Bool) (s : Gui.DState)
    (c : Gui.MidiCommand) (idx ch : Nat) :
    maxPrefixOpenFrom (Gui.connCount s) (Gui.step openOk s c).2 ≤ 2 ∧
    Gui.connCount (Gui.step openOk s c).1 =
      Gui.connCount s + netOpen (Gui.step openOk s c).2 ∧
    Gui.connCount (Gui.step openOk s c).1 ≤ 1 ∧
    (Gui.step openOk s (.connect (some idx) ch)).2 =
      (if openOk idx then Ev.opened s.nextHandle :: closeEvs s.conn
       else []) := by
  obtain ⟨conn, port, chan, bpm, nh⟩ := s
  have h4 : (Gui.step openOk ⟨conn, port, chan, bpm, nh⟩
      (.connect (some idx) ch)).2 =
      (if openOk idx then Ev.opened nh :: closeEvs conn else []) := by
    cases hoi : openOk idx <;> simp [Gui.step, hoi]
  have hzburst : ∀ e ∈ Ev.wrote 0xFA :: startBurst 6, evDelta e = 0 := by
    intro e he
    rcases List.mem_cons.mp he with h | h
    · subst h; rfl
    · exact evDelta_zero_of_mem_startBurst 6 e h
  have hburstMax : maxPrefixOpenAux 1 1 (Ev.wrote 0xFA :: startBurst 6) = 1 :=
    maxAux_zero _ hzburst 1 1 le_rfl
  have hburstNet : netOpen (Ev.wrote 0xFA :: startBurst 6) = 0 :=
    netOpen_of_zero _ hzburst
  have hzcc : ∀ a b v, ∀ e ∈ (send_cc a b v).map Ev.wrote, evDelta e = 0 := by
    intro a b v e he
    rcases List.mem_map.mp he with ⟨x, _, rfl⟩
    rfl
  cases c with
  | connect mi ch2 =>
    rcases mi with _ | ⟨i⟩
    · refine ⟨?_, ?_, ?_, h4⟩ <;> cases conn <;>
        simp [Gui.step, Gui.connCount, netOpen, maxPrefixOpenFrom,
          maxPrefixOpenAux, evDelta]
    · cases hoi : openOk i <;> cases conn <;> refine ⟨?_, ?_, ?_, h4⟩ <;>
        simp [Gui.step, hoi, Gui.connCount, netOpen, maxPrefixOpenFrom,
          maxPrefixOpenAux, evDelta, closeEvs]
  | disconnect =>
    refine ⟨?_, ?_, ?_, h4⟩ <;> cases conn <;>
      simp [Gui.step, Gui.connCount, netOpen, maxPrefixOpenFrom,
        maxPrefixOpenAux, evDelta, closeEvs]
  | sendCC a b v =>
    cases conn with
    | none =>
      exact ⟨by simp [Gui.step, Gui.connCount, maxPrefixOpenFrom,
          maxPrefixOpenAux],
        by simp [Gui.step, Gui.connCount, netOpen],
        by simp [Gui.step, Gui.connCount], h4⟩
    | some h0 =>
      refine ⟨?_, ?_, by simp [Gui.step, Gui.connCount], h4⟩
      · have hm : maxPrefixOpenAux 1 1 ((send_cc a b v).map Ev.wrote) = 1 :=
          maxAux_zero _ (hzcc a b v) 1 1 le_rfl
        simp [Gui.step, Gui.connCount, maxPrefixOpenFrom, hm]
      · have hn : netOpen ((send_cc a b v).map Ev.wrote) = 0 :=
          netOpen_of_zero _ (hzcc a b v)
        simp [Gui.step, Gui.connCount, hn]
  | start =>
    cases conn with
    | none =>
      exact ⟨by simp [Gui.step, Gui.connCount, maxPrefixOpenFrom,
          maxPrefixOpenAux],
        by simp [Gui.step, Gui.connCount, netOpen],
        by simp [Gui.step, Gui.connCount], h4⟩
    | some h0 =>
      refine ⟨?_, ?_, by simp [Gui.step, Gui.connCount], h4⟩
      · simp [Gui.step, Gui.connCount, maxPrefixOpenFrom, hburstMax]
      · simp [Gui.step, Gui.connCount, hburstNet]
  | stop =>
    refine ⟨?_, ?_, ?_, h4⟩ <;> cases conn <;>
      simp [Gui.step, Gui.connCount, netOpen, maxPrefixOpenFrom,
        maxPrefixOpenAux, evDelta]
  | cont =>
    refine ⟨?_, ?_, ?_, h4⟩ <;> cases conn <;>
      simp [Gui.step, Gui.connCount, netOpen, maxPrefixOpenFrom,
        maxPrefixOpenAux, evDelta]
  | queryDevice =>
    refine ⟨?_, ?_, ?_, h4⟩ <;> cases conn <;>
      simp [Gui.step, Gui.connCount, netOpen, maxPrefixOpenFrom,
        maxPrefixOpenAux, evDelta]
  | setBpm b =>
    refine ⟨?_, ?_, ?_, h4⟩ <;> cases conn <;>
      simp [Gui.step, Gui.connCount, netOpen, maxPrefixOpenFrom,
        maxPrefixOpenAux, evDelta]
  | quit =>
    refine ⟨?_, ?_, ?_, h4⟩ <;> cases conn <;>
      simp [Gui.step, Gui.connCount, netOpen, maxPrefixOpenFrom,
        maxPrefixOpenAux, evDelta]

theorem bytesOf_clockTicks (ms n : Nat) :
    bytesOf (clockTicks ms n) = List.replicate n 0xF8 := by
  induction n with
  | zero => rfl
  | succ k ih =>
    simp only [clockTicks, bytesOf, List.filterMap] at ih ⊢
    simp [Ev.byteOf, ih, List.replicate]

/-- C9 counterexample: the claim says `send_timing_clock` sleeps
`60000 / (bpm * 24)` milliseconds between pulses (≈20.833 ms at bpm 120),
but the code truncates the millisecond value to a whole number via
`Duration::from_millis(ms_per_tick as u64)`: at bpm = 120 it sleeps
exactly 20 ms, and 20 ≠ 60000 / (120 * 24). -/
theorem ratFloor_eq_intFloor (a : ℚ) : Rat.floor a = ⌊a⌋ :=
  (Rat.floor_def' a).trans Rat.floor_def.symm

theorem timing_clock_truncates_cex :
    send_timing_clock 120 1 = [Ev.wrote 0xF8, Ev.slept 20] ∧
    (20 : ℚ) ≠ 60000 / (120 * 24) := by
  have e1 : (60 : ℚ) / (120 * 24) * 1000 = ((125 : ℤ) : ℚ) / ((6 : ℕ) : ℚ) := by
    push_cast
    norm_num
  have h20 : (Rat.floor ((60 : ℚ) / (120 * 24) * 1000)).toNat = 20 := by
    rw [ratFloor_eq_intFloor, e1, Rat.floor_intCast_div_natCast]
    decide
  constructor
  · simp only [send_timing_clock]
    rw [h20]
    rfl
  · norm_num

/-- C9 (amended): for every bpm > 0 and pulse count n, `send_timing_clock`
emits exactly n clock bytes 0xF8 and sleeps
`⌊60000 / (bpm * 24)⌋` milliseconds — the millisecond value truncated to a
whole number by the `as u64` cast — after each pulse (20 ms at bpm = 120,
41 ms at bpm = 60). -/
theorem timing_clock_floor (bpm : ℚ) (n : Nat) (hb : 0 < bpm) :
    send_timing_clock bpm n =
      clockTicks (Rat.floor (60000 / (bpm * 24))).toNat n ∧
    bytesOf (send_timing_clock bpm n) = List.replicate n 0xF8 := by
  have harg : (60 : ℚ) / (bpm * 24) * 1000 = 60000 / (bpm * 24) := by
    rw [div_mul_eq_mul_div]
    norm_num
  constructor
  · simp only [send_timing_clock]
    rw [harg]
  · simp only [send_timing_clock]
    exact bytesOf_clockTicks _ n

theorem timing_clock_floor_witness :
    (send_timing_clock 120 2 =
      clockTicks (Rat.floor (60000 / (120 * 24))).toNat 2 ∧
    bytesOf (send_timing_clock 120 2) = List.replicate 2 0xF8) ∧
    send_timing_clock 120 2 =
      [Ev.wrote 0xF8, Ev.slept 20, Ev.wrote 0xF8, Ev.slept 20] := by
  have main := timing_clock_floor 120 2 (by norm_num)
  refine ⟨main, ?_⟩
  rw [main.1]
  have h20 : (Rat.floor ((60000 : ℚ) / (120 * 24))).toNat = 20 := by
    have e1 : (60000 : ℚ) / (120 * 24) = ((125 : ℤ) : ℚ) / ((6 : ℕ) : ℚ) := by
      push_cast
      norm_num
    rw [ratFloor_eq_intFloor, e1, Rat.floor_intCast_div_natCast]
    decide
  rw [h20]
  rfl

end MidiCtrl
